import Mathlib

/-!
Verification development for the dota2-hub repository (backend `server.js`,
front-end `app.js`).  Shallow embedding: the pure data-munging functions are
translated to Lean functions; the network is abstracted as explicit outcome
parameters (`Except Unit _` for a fallible fetch, `Option` for a JSON `null`),
and time is an explicit natural-number parameter (seconds for the scraper's
epoch timestamps, milliseconds for the player-hero cache TTL).
-/

/-- JavaScript truthiness for an optional string: `a || b` returns `b` when
`a` is absent or the empty string. -/
def jsStrOr (a : Option String) (b : String) : String :=
  match a with
  | some s => if s = "" then b else s
  | none => b

/-- JavaScript `a.includes(b)`: `b` occurs as a contiguous substring of `a`. -/
def jsIncludes (a b : String) : Bool :=
  a.data.tails.any (fun t => b.data.isPrefixOf t)

/-- JavaScript `String.prototype.trim` (drop whitespace at both ends). -/
def jsTrim (s : String) : String :=
  ⟨((s.data.dropWhile Char.isWhitespace).reverse.dropWhile
      Char.isWhitespace).reverse⟩

/-- JavaScript `String.prototype.toLowerCase`. -/
def jsToLower (s : String) : String := ⟨s.data.map Char.toLower⟩

/-- JavaScript `a.startsWith(b)`. -/
def jsStartsWith (a b : String) : Bool := b.data.isPrefixOf a.data

/-- The splitter loop behind `jsSplit` (fuel-structural so that it reduces
in the kernel). -/
def splitAux (sep : List Char) : Nat → List Char → List Char →
    List (List Char)
  | 0, l, cur => [cur ++ l]
  | fuel + 1, l, cur =>
    match l with
    | [] => [cur]
    | c :: rest =>
      if sep.isPrefixOf (c :: rest) then
        cur :: splitAux sep fuel ((c :: rest).drop sep.length) []
      else splitAux sep fuel rest (cur ++ [c])

/-- JavaScript `a.split(sep)` for a non-empty literal separator. -/
def jsSplit (s sep : String) : List String :=
  (splitAux sep.data (s.data.length + 1) s.data []).map (fun l => ⟨l⟩)

/-- JavaScript `s.replace(/c/g, r)` for single characters. -/
def jsReplaceChar (s : String) (c r : Char) : String :=
  ⟨s.data.map (fun x => if x = c then r else x)⟩

/-- Insert `x` into a sorted list, before the first element `y` with
`le x y` (keeping earlier elements of equal rank in front: stability). -/
def insertBy (le : α → α → Bool) (x : α) : List α → List α
  | [] => [x]
  | y :: ys => if le x y then x :: y :: ys else y :: insertBy le x ys

/-- A stable comparison sort (`Array.prototype.sort` is required to be
stable); structural so that it reduces in the kernel. -/
def sortBy (le : α → α → Bool) : List α → List α
  | [] => []
  | x :: xs => insertBy le x (sortBy le xs)

theorem insertBy_perm (le : α → α → Bool) (x : α) (l : List α) :
    (insertBy le x l).Perm (x :: l) := by
  induction l with
  | nil => exact List.Perm.refl _
  | cons y ys ih =>
    unfold insertBy
    by_cases h : le x y
    · rw [if_pos h]
    · rw [if_neg h]
      exact (List.Perm.cons y ih).trans (List.Perm.swap x y ys)

theorem sortBy_perm (le : α → α → Bool) (l : List α) :
    (sortBy le l).Perm l := by
  induction l with
  | nil => exact List.Perm.refl _
  | cons x xs ih =>
    exact (insertBy_perm le x (sortBy le xs)).trans (List.Perm.cons x ih)

-- ---------------------------------------------------------------------------
-- Static team configuration (server.js / app.js, const TEAMS)
-- ---------------------------------------------------------------------------

/-- The three tracked teams (the keys of the `TEAMS` object). -/
inductive TeamKey where
  | xg | yb | vg
deriving DecidableEq, Repr, Inhabited

/-- One entry of the `TEAMS` configuration object. -/
structure TeamCfg where
  id : Nat
  name : String
  tag : String
deriving DecidableEq, Repr, Inhabited

/-- The `TEAMS` constant from server.js. -/
def TEAMS : TeamKey → TeamCfg
  | .xg => { id := 8261500, name := "Xtreme Gaming", tag := "XG" }
  | .yb => { id := 9351740, name := "Yakult Brothers", tag := "YB" }
  | .vg => { id := 726228, name := "Vici Gaming", tag := "VG" }

/-- `Object.keys(TEAMS)` in insertion order. -/
def allTeamKeys : List TeamKey := [.xg, .yb, .vg]

-- ---------------------------------------------------------------------------
-- Match records (OpenDota team-match objects, as used by app.js)
-- ---------------------------------------------------------------------------

/-- A team match record as consumed by the front end.  Fields that JavaScript
may find `undefined` on the raw JSON are `Option`s. -/
structure MatchRec where
  match_id : Nat
  start_time : Option Nat
  radiant : Option Bool
  radiant_win : Option Bool
  opposing_team_id : Option Nat
  opposing_team_name : Option String
  league_name : Option String
  leagueid : Option Nat
deriving DecidableEq, Repr, Inhabited

/-- `m.start_time || 0`. -/
def stTime (m : MatchRec) : Nat := m.start_time.getD 0

/-- app.js `didWin`: the tracked team won the game. -/
def didWin (m : MatchRec) : Bool :=
  (m.radiant = some true && m.radiant_win = some true) ||
  (m.radiant = some false && m.radiant_win = some false)

-- ---------------------------------------------------------------------------
-- Series grouping (app.js, groupMatchesIntoSeries)
-- ---------------------------------------------------------------------------

/-- The series object built by `groupMatchesIntoSeries`.  `boType` and
`seriesWon` are filled in by the second pass (they default until then). -/
structure Series where
  league : String
  leagueid : Option Nat
  opponent : String
  opponentId : Option Nat
  wins : Nat
  losses : Nat
  games : List MatchRec
  latestTime : Nat
  boType : String
  seriesWon : Bool
deriving DecidableEq, Repr, Inhabited

/-- A fresh series seeded with its first game (the `cur = { ... }` object). -/
def newSeries (m : MatchRec) : Series :=
  { league := m.league_name.getD ""
    leagueid := m.leagueid
    opponent := jsStrOr m.opposing_team_name "Unknown"
    opponentId := m.opposing_team_id
    wins := if didWin m then 1 else 0
    losses := if didWin m then 0 else 1
    games := [m]
    latestTime := stTime m
    boType := ""
    seriesWon := false }

/-- `cur.games.push(m)` together with the win/loss bump. -/
def pushGame (s : Series) (m : MatchRec) : Series :=
  { s with games := s.games ++ [m]
           wins := if didWin m then s.wins + 1 else s.wins
           losses := if didWin m then s.losses else s.losses + 1 }

/-- `cur.games[cur.games.length - 1].start_time || 0`. -/
def lastTime (s : Series) : Nat := (s.games.getLast?.map stTime).getD 0

/-- The join test of the first loop: same opponent id, same league name,
non-empty game list, and the new game within 6 hours of the last one. -/
def joinsCurrent (s : Series) (m : MatchRec) : Bool :=
  s.opponentId = m.opposing_team_id &&
  s.league = m.league_name.getD "" &&
  !s.games.isEmpty &&
  ((stTime m : Int) - (lastTime s : Int)).natAbs < 6 * 3600

/-- One iteration of the first loop of `groupMatchesIntoSeries`: the
accumulator is the list of finished series plus the current open one. -/
def seriesStep (acc : List Series × Option Series) (m : MatchRec) :
    List Series × Option Series :=
  match acc.2 with
  | some cur =>
    if joinsCurrent cur m then (acc.1, some (pushGame cur m))
    else (acc.1 ++ [cur], some (newSeries m))
  | none => (acc.1, some (newSeries m))

/-- Descending sort by `start_time || 0` (the JS comparator
`(b.start_time||0) - (a.start_time||0)`; `Array.prototype.sort` is stable). -/
def sortDesc (l : List MatchRec) : List MatchRec :=
  sortBy (fun a b => stTime b ≤ stTime a) l

/-- The first pass of `groupMatchesIntoSeries`: group the descending-sorted
matches into raw series. -/
def groupPass (l : List MatchRec) : List Series :=
  let r := l.foldl seriesStep ([], none)
  r.1 ++ r.2.toList

/-- The second pass over one series: infer the best-of label, the series
result, and re-sort the games ascending. -/
def finalizeSeries (s : Series) : Series :=
  let total := s.games.length
  let mx := max s.wins s.losses
  { s with
    boType :=
      if total = 1 then "BO1"
      else if mx = 2 ∧ total ≤ 3 then "BO3"
      else if mx = 3 ∧ total ≤ 5 then "BO5"
      else toString total ++ "G"
    seriesWon := s.losses < s.wins
    games := sortBy (fun a b => stTime a ≤ stTime b) s.games }

/-- app.js `groupMatchesIntoSeries`. -/
def groupMatchesIntoSeries (ms : List MatchRec) : List Series :=
  if ms.isEmpty then []
  else (groupPass (sortDesc ms)).map finalizeSeries

-- ---------------------------------------------------------------------------
-- Specification-side definitions for the series claim (C8)
-- ---------------------------------------------------------------------------

/-- Written from the claim: two adjacent games belong to the same series when
they share the opposing team id and the league name and start within 6 hours
of each other. -/
def sameSeriesAdj (a b : MatchRec) : Bool :=
  a.opposing_team_id = b.opposing_team_id &&
  a.league_name.getD "" = b.league_name.getD "" &&
  ((stTime b : Int) - (stTime a : Int)).natAbs < 6 * 3600

/-- Chunk a list into maximal runs of elements linked pairwise by `p`
(the current chunk is `cur ++ [last]`). -/
def chunkByGo (p : α → α → Bool) (cur : List α) (last : α) :
    List α → List (List α)
  | [] => [cur ++ [last]]
  | y :: ys =>
    if p last y then chunkByGo p (cur ++ [last]) y ys
    else (cur ++ [last]) :: chunkByGo p [] y ys

/-- Chunk a list into maximal runs of adjacent elements satisfying `p`. -/
def chunkBy (p : α → α → Bool) : List α → List (List α)
  | [] => []
  | x :: xs => chunkByGo p [] x xs

/-- Written from the claim: the inferred format as a function of the number of
games and the number of won games ("larger side" = max of wins and losses). -/
def boFormula (total wins : Nat) : String :=
  let mx := max wins (total - wins)
  if total = 1 then "BO1"
  else if mx = 2 ∧ total ≤ 3 then "BO3"
  else if mx = 3 ∧ total ≤ 5 then "BO5"
  else toString total ++ "G"

-- ---------------------------------------------------------------------------
-- fetchWithRetry (server.js)
-- ---------------------------------------------------------------------------

/-- Result of a `fetchWithRetry` run: the outcome (`Except.error none` models
the JavaScript `undefined` returned when the loop body never runs), the number
of attempts performed, and the list of back-off delays awaited (ms). -/
structure RetryRun (E A : Type) where
  result : Except (Option E) A
  attempts : Nat
  waits : List Nat
deriving Repr

/-- The loop of `fetchWithRetry`, with attempt `i` drawn from the oracle
`attempt : Nat -> Except E A` (one entry per network try). -/
def fetchWithRetryGo (attempt : Nat → Except E A) (retries : Nat)
    (i : Nat) (ws : List Nat) : RetryRun E A :=
  if i < retries then
    match attempt i with
    | .ok v => ⟨.ok v, i + 1, ws⟩
    | .error e =>
      if i = retries - 1 then ⟨.error (some e), i + 1, ws⟩
      else fetchWithRetryGo attempt retries (i + 1) (ws ++ [1000 * (i + 1)])
  else ⟨.error none, i, ws⟩
termination_by retries - i

/-- server.js `fetchWithRetry(endpoint, retries = 3)`; the endpoint is
abstracted into the attempt oracle. -/
def fetchWithRetry (attempt : Nat → Except E A) (retries : Nat := 3) :
    RetryRun E A :=
  fetchWithRetryGo attempt retries 0 []

-- ---------------------------------------------------------------------------
-- Liquipedia scraper (server.js, fetchUpcoming)
-- ---------------------------------------------------------------------------

/-- One `match-info` block of the wiki HTML after the regex extraction step
(which a shallow embedding abstracts): the raw `(title, imgSrc)` pairs of the
team-link regex in match order, the `data-timestamp` value, the tournament
link title, and the `(BoN)` digit. -/
structure Fragment where
  rawTeams : List (String × String)
  timestamp : Option Nat
  tournamentTitle : Option String
  bo : Option Nat
deriving DecidableEq, Repr, Inhabited

/-- The scanned response page: the length of the parsed HTML payload and its
`match-info` fragments. -/
structure ScrapedPage where
  htmlLen : Nat
  fragments : List Fragment
deriving Repr, Inhabited

/-- An entry of the `upcoming` array. `dateStrMs` abstracts the rendered ISO
string to the epoch milliseconds it displays. -/
structure UpEntry where
  teamKey : TeamKey
  teamTag : String
  opponent : String
  tournament : String
  bestOf : String
  ourLogo : Option String
  oppLogo : Option String
  timestamp : Option Nat
  dateStrMs : Option Nat
deriving DecidableEq, Repr, Inhabited

/-- The team-name/logo scan over a block's team-link matches: trim the title,
drop titles containing a slash or hash, keep titles of length 2 to 39, dedupe
in first-seen order, and record the logo (overwriting when the image source
mentions `darkmode` or `allmode`). -/
def scanTeams (raw : List (String × String)) :
    List String × (String → Option String) :=
  raw.foldl
    (fun acc ti =>
      let title := jsTrim ti.1
      if jsIncludes title "/" || jsIncludes title "#" then acc
      else if 2 ≤ title.length ∧ title.length < 40 then
        ((if title ∈ acc.1 then acc.1 else acc.1 ++ [title]),
         if (acc.2 title).isNone || jsIncludes ti.2 "darkmode" ||
            jsIncludes ti.2 "allmode" then
           fun t => if t = title then
             some ("https://liquipedia.net" ++ ti.2) else acc.2 t
         else acc.2)
      else acc)
    ([], fun _ => none)

/-- The `teamLookup` patterns in insertion order: full name, tag, and first
word of the name, all lower-cased, for each tracked team. -/
def teamLookup : List (String × TeamKey) :=
  allTeamKeys.flatMap (fun k =>
    [(jsToLower (TEAMS k).name, k), (jsToLower (TEAMS k).tag, k),
     (jsToLower ((jsSplit (TEAMS k).name " ").headD ""), k)])

/-- One lookup-table probe: `lower.includes(pattern) || pattern.includes(lower)`. -/
def nameMatchesPattern (lower pattern : String) : Bool :=
  jsIncludes lower pattern || jsIncludes pattern lower

/-- The nested loop searching `teamNames` for the first tracked-team hit. -/
def findOurKey (teamNames : List String) : Option TeamKey :=
  teamNames.findSome? (fun name =>
    (teamLookup.find? (fun pk => nameMatchesPattern (jsToLower name) pk.1)).map
      (·.2))

/-- The tournament-title formatting of `fetchUpcoming`. -/
def formatTournament (title : Option String) : String :=
  match title with
  | none => ""
  | some t =>
    let parts := jsSplit (jsReplaceChar t '_' ' ') "/"
    let name := jsTrim (parts.headD "")
    let season := jsTrim (parts[1]?.getD "")
    let stage := jsTrim ((jsSplit (parts[2]?.getD "") "#").headD "")
    let tourn := if season = "" then name
                 else name ++ " Season " ++ season
    if stage = "" then tourn else tourn ++ " - " ++ stage

/-- The loop body of `fetchUpcoming` for one match block, given the scrape
time `now` in epoch seconds: `none` when the block is skipped (`continue`). -/
def processFragment (now : Nat) (frag : Fragment) : Option UpEntry :=
  let scanned := scanTeams frag.rawTeams
  let teamNames := scanned.1
  let teamLogos := scanned.2
  if teamNames.length < 2 then none
  else
    match findOurKey teamNames with
    | none => none
    | some ourKey =>
      if (match frag.timestamp with
          | some t => !(t = 0) && decide (t < now - 3600)
          | none => false) then none
      else
        let tournament := formatTournament frag.tournamentTitle
        let bestOf := match frag.bo with
          | some d => "BO" ++ toString d
          | none => ""
        let ourNames := [jsToLower (TEAMS ourKey).name, jsToLower (TEAMS ourKey).tag]
        let opponent :=
          match teamNames.find? (fun t =>
              !(ourNames.any (fun n => jsIncludes (jsToLower t) n))) with
          | some t => t
          | none => (teamNames[1]?.getD "TBD")
        let ourTeamName := teamNames.find? (fun t =>
          ourNames.any (fun n => jsIncludes (jsToLower t) n))
        let ourLogo := ourTeamName.bind teamLogos
        let oppLogo := teamLogos opponent
        some { teamKey := ourKey, teamTag := (TEAMS ourKey).tag,
               opponent, tournament, bestOf, ourLogo, oppLogo,
               timestamp := frag.timestamp,
               dateStrMs := match frag.timestamp with
                 | some t => if t = 0 then none else some (t * 1000)
                 | none => none }

/-- server.js `fetchUpcoming`: the single wiki response is abstracted as an
`Except` of the scraped page; any failure (network, JSON parse) lands in the
catch block, which returns the empty list.  Included entries are sorted
ascending by `timestamp || 0` (stable). -/
def fetchUpcoming (now : Nat) (resp : Except Unit ScrapedPage) :
    List UpEntry :=
  match resp with
  | .error _ => []
  | .ok page =>
    if page.htmlLen < 1000 then []
    else
      sortBy (fun a b => a.timestamp.getD 0 ≤ b.timestamp.getD 0)
        (page.fragments.filterMap (processFragment now))

-- ---------------------------------------------------------------------------
-- OpenDota payload shapes used by the refresh cycle
-- ---------------------------------------------------------------------------

/-- The `/teams/:id` info object (only the fields the code reads later;
`{}` is all-`none`). -/
structure TeamInfo where
  name : Option String
  tag : Option String
  rating : Option Nat
  wins : Option Nat
  losses : Option Nat
  logo_url : Option String
deriving DecidableEq, Repr, Inhabited

/-- The `{}` fallback of `info || {}`. -/
def emptyInfo : TeamInfo :=
  { name := none, tag := none, rating := none, wins := none,
    losses := none, logo_url := none }

/-- One `/teams/:id/players` entry. -/
structure PlayerStat where
  account_id : Nat
  games_played : Option Nat
  wins : Option Nat
deriving DecidableEq, Repr, Inhabited

/-- One `/teams/:id/heroes` entry. -/
structure TeamHero where
  hero_id : Nat
  games_played : Option Nat
  wins : Option Nat
deriving DecidableEq, Repr, Inhabited

/-- One `/heroStats` entry (the fields the front end reads). -/
structure HeroStat where
  id : Nat
  localized_name : Option String
  img : Option String
  icon : Option String
deriving DecidableEq, Repr, Inhabited

/-- One `/live` entry. -/
structure LiveMatch where
  radiant_team_id : Option Nat
  dire_team_id : Option Nat
deriving DecidableEq, Repr, Inhabited

/-- One `/proPlayers` entry. -/
structure ProPlayer where
  account_id : Option Nat
  name : Option String
deriving DecidableEq, Repr, Inhabited

/-- One player object of a `/matches/:id` detail. -/
structure MatchDetailPlayer where
  account_id : Nat
  personaname : Option String
  player_slot : Nat
  hero_id : Option Nat
deriving DecidableEq, Repr, Inhabited

/-- A `/matches/:id` detail. -/
structure MatchDetail where
  players : Option (List MatchDetailPlayer)
deriving DecidableEq, Repr, Inhabited

/-- A roster row built by `buildCurrentRosters`. -/
structure RosterEntry where
  account_id : Nat
  name : String
  personaname : String
  games_played : Nat
  wins : Nat
  hero_id : Option Nat
deriving DecidableEq, Repr, Inhabited

/-- The per-team result object of the refresh fan-out. -/
structure TeamResult where
  key : TeamKey
  info : TeamInfo
  matches_ : List MatchRec
  players : List PlayerStat
  heroes : List TeamHero
deriving DecidableEq, Repr, Inhabited

/-- `{ ...t, roster }`: the stored per-team data. -/
structure TeamData where
  key : TeamKey
  info : TeamInfo
  matches_ : List MatchRec
  players : List PlayerStat
  heroes : List TeamHero
  roster : List RosterEntry
deriving DecidableEq, Repr, Inhabited

/-- The cached snapshot assembled by `refreshAllData` (`liveUpdated` is only
added later by `refreshLiveOnly`). -/
structure Snapshot where
  teams : TeamKey → TeamData
  heroMap : Nat → Option HeroStat
  liveMatches : List LiveMatch
  upcoming : List UpEntry
  teamConfig : TeamKey → TeamCfg
  lastUpdated : Nat
  liveUpdated : Option Nat

/-- A per-player hero-cache entry (`{ data, timestamp }`). -/
structure PHData where
  hero_id : Nat
  games : Nat
  win : Nat
deriving DecidableEq, Repr, Inhabited

/-- A raw `/players/:id/heroes` entry. -/
structure RawPlayerHero where
  hero_id : Nat
  games : Option Nat
  win : Option Nat
deriving DecidableEq, Repr, Inhabited

/-- A `playerHeroCache` slot. -/
structure PHEntry where
  data : List PHData
  timestamp : Nat
deriving DecidableEq, Repr, Inhabited

/-- The mutable server state: the snapshot cache, the refresh flag, and the
per-player hero cache. -/
structure ServerState where
  cachedData : Option Snapshot
  isRefreshing : Bool
  playerHeroCache : Nat → Option PHEntry

-- ---------------------------------------------------------------------------
-- Refresh cycle (server.js, refreshAllData / buildCurrentRosters)
-- ---------------------------------------------------------------------------

/-- The outcomes of all outbound fetches of one refresh cycle.  `Except Unit`
models rejection of the underlying (retried) fetch; the inner `Option` models
a JSON `null` payload. -/
structure FetchOutcomes where
  teamInfo : TeamKey → Except Unit (Option TeamInfo)
  teamMatches : TeamKey → Except Unit (Option (List MatchRec))
  teamPlayers : TeamKey → Except Unit (Option (List PlayerStat))
  teamHeroes : TeamKey → Except Unit (Option (List TeamHero))
  heroStats : Except Unit (Option (List HeroStat))
  live : Except Unit (Option (List LiveMatch))
  proPlayers : Except Unit (Option (List ProPlayer))
  matchDetail : Nat → Except Unit (Option MatchDetail)
  upcomingResp : Except Unit ScrapedPage

/-- The per-team `Promise.all` of info/matches/players/heroes: all four must
resolve, with the usual `|| {}` / `|| []` defaults and `slice(0, 50)`. -/
def teamFetch (o : FetchOutcomes) (k : TeamKey) : Except Unit TeamResult :=
  match o.teamInfo k, o.teamMatches k, o.teamPlayers k, o.teamHeroes k with
  | .ok i, .ok m, .ok p, .ok h =>
    .ok { key := k, info := i.getD emptyInfo, matches_ := (m.getD []).take 50,
          players := p.getD [], heroes := h.getD [] }
  | _, _, _, _ => .error ()

/-- `proNameMap`: last write wins, and only truthy ids and names are kept. -/
def mkProNameMap (ps : List ProPlayer) : Nat → Option String :=
  ps.foldl
    (fun acc p =>
      match p.account_id, p.name with
      | some aid, some nm =>
        if aid ≠ 0 ∧ nm ≠ "" then
          fun i => if i = aid then some nm else acc i
        else acc
      | _, _ => acc)
    (fun _ => none)

/-- `heroMap[h.id] = h` over the hero-stats list. -/
def mkHeroMap (hs : List HeroStat) : Nat → Option HeroStat :=
  hs.foldl (fun acc h => fun i => if i = h.id then some h else acc i)
    (fun _ => none)

/-- `statsMap[p.account_id] = p` over the team players list. -/
def mkStatsMap (ps : List PlayerStat) : Nat → Option PlayerStat :=
  ps.foldl (fun acc p => fun i => if i = p.account_id then some p else acc i)
    (fun _ => none)

/-- The roster construction for one team inside `buildCurrentRosters`: a
missing recent match, a failed or null detail fetch, or a missing player list
all yield the empty roster, never an error. -/
def rosterFor (proName : Nat → Option String)
    (detail : Nat → Except Unit (Option MatchDetail)) (t : TeamResult) :
    List RosterEntry :=
  match t.matches_.head? with
  | none => []
  | some recent =>
    match detail recent.match_id with
    | .error _ => []
    | .ok none => []
    | .ok (some md) =>
      match md.players with
      | none => []
      | some ps =>
        let isRadiant := recent.radiant = some true
        let teamPlayers := ps.filter (fun p =>
          if isRadiant then p.player_slot < 128 else 128 ≤ p.player_slot)
        let statsMap := mkStatsMap t.players
        teamPlayers.map (fun p =>
          { account_id := p.account_id
            name := jsStrOr (proName p.account_id)
              (jsStrOr p.personaname (toString p.account_id))
            personaname := p.personaname.getD ""
            games_played := ((statsMap p.account_id).bind
              (·.games_played)).getD 0
            wins := ((statsMap p.account_id).bind (·.wins)).getD 0
            hero_id := p.hero_id })

/-- server.js `buildCurrentRosters` (keyed by team). -/
def buildCurrentRosters (o : FetchOutcomes) (proPlayers : List ProPlayer)
    (res : TeamKey → TeamResult) : TeamKey → List RosterEntry :=
  fun k => rosterFor (mkProNameMap proPlayers) o.matchDetail (res k)

/-- `ourIds.has(...)` on an optional team id. -/
def ourIdsHas (i : Option Nat) : Bool :=
  match i with
  | some v => (allTeamKeys.map (fun k => (TEAMS k).id)).contains v
  | none => false

/-- The body of the `try` block of `refreshAllData` at epoch-second `now`:
the required fetches (hero stats and every per-team fetch) must all succeed;
`/live`, `/proPlayers` and the Liquipedia scrape are caught to defaults. -/
def refreshBody (o : FetchOutcomes) (now : Nat) : Except Unit Snapshot :=
  match o.heroStats, teamFetch o .xg, teamFetch o .yb, teamFetch o .vg with
  | .ok heroStats, .ok rxg, .ok ryb, .ok rvg =>
    let liveRaw := match o.live with
      | .ok v => v
      | .error _ => some []
    let proPlayers := (match o.proPlayers with
      | .ok v => v
      | .error _ => some []).getD []
    let res : TeamKey → TeamResult := fun k =>
      match k with
      | .xg => rxg
      | .yb => ryb
      | .vg => rvg
    let rosters := buildCurrentRosters o proPlayers res
    let teams : TeamKey → TeamData := fun k =>
      { key := (res k).key, info := (res k).info, matches_ := (res k).matches_,
        players := (res k).players, heroes := (res k).heroes,
        roster := rosters k }
    let liveMatches := (liveRaw.getD []).filter (fun m =>
      ourIdsHas m.radiant_team_id || ourIdsHas m.dire_team_id)
    .ok { teams
          heroMap := mkHeroMap (heroStats.getD [])
          liveMatches
          upcoming := fetchUpcoming now o.upcomingResp
          teamConfig := TEAMS
          lastUpdated := now
          liveUpdated := none }
  | _, _, _, _ => .error ()

/-- server.js `refreshAllData`: the guard flag, the guarded body, and the
`finally` clearing the flag.  The boolean result records whether a refresh
cycle actually ran (the early return performs no fetch at all). -/
def refreshAllData (st : ServerState) (o : FetchOutcomes) (now : Nat) :
    ServerState × Bool :=
  if st.isRefreshing then (st, false)
  else
    match refreshBody o now with
    | .ok snap => ({ st with cachedData := some snap, isRefreshing := false }, true)
    | .error _ => ({ st with isRefreshing := false }, true)

-- ---------------------------------------------------------------------------
-- Live-only refresh (server.js, refreshLiveOnly)
-- ---------------------------------------------------------------------------

/-- server.js `refreshLiveOnly` at epoch-second `now`: the `/live` fetch is
caught to `[]`; when a snapshot exists only its `liveMatches` and
`liveUpdated` fields are written. -/
def refreshLiveOnly (st : ServerState)
    (liveOutcome : Except Unit (Option (List LiveMatch))) (now : Nat) :
    ServerState :=
  let liveRaw := match liveOutcome with
    | .ok v => v
    | .error _ => some []
  let liveMatches := (liveRaw.getD []).filter (fun m =>
    ourIdsHas m.radiant_team_id || ourIdsHas m.dire_team_id)
  match st.cachedData with
  | none => st
  | some s =>
    let s2 := { s with liveMatches := liveMatches, liveUpdated := some now }
    { st with cachedData := some s2 }

-- ---------------------------------------------------------------------------
-- Player heroes (server.js, getPlayerHeroes)
-- ---------------------------------------------------------------------------

/-- The reshaping of a raw `/players/:id/heroes` payload:
`(data || []).filter(h => h.games > 0).slice(0, 10).map(...)`. -/
def phTransform (d : Option (List RawPlayerHero)) : List PHData :=
  (((d.getD []).filter (fun h => 0 < h.games.getD 0)).take 10).map (fun h =>
    { hero_id := h.hero_id, games := h.games.getD 0, win := h.win.getD 0 })

/-- server.js `getPlayerHeroes` at epoch-millisecond `now`: a cache entry
younger than 30 minutes short-circuits; otherwise the fetched list is
filtered to played heroes, truncated to 10, reshaped, stored, and returned.
The boolean records whether a fetch was issued. -/
def getPlayerHeroes (st : ServerState) (now accountId : Nat)
    (fetched : Except Unit (Option (List RawPlayerHero))) :
    Except Unit (List PHData) × ServerState × Bool :=
  let fetchPath :=
    match fetched with
    | .error e => (.error e, st, true)
    | .ok d =>
      let heroes := phTransform d
      (.ok heroes,
       { st with playerHeroCache := fun i =>
           if i = accountId then some { data := heroes, timestamp := now }
           else st.playerHeroCache i },
       true)
  match st.playerHeroCache accountId with
  | some c =>
    if now - c.timestamp < 30 * 60 * 1000 then (.ok c.data, st, false)
    else fetchPath
  | none => fetchPath

-- ---------------------------------------------------------------------------
-- HTTP handlers (server.js, http.createServer callback)
-- ---------------------------------------------------------------------------

/-- The body of an `/api/data` response. -/
inductive DataBody where
  | snapshot (s : Snapshot)
  | loadingError

/-- The `/api/data` branch: the cached snapshot with 200, or a 503 error
body; the state is not touched. -/
def handleApiData (st : ServerState) : (Nat × DataBody) × ServerState :=
  ((if st.cachedData.isSome then 200 else 503,
    match st.cachedData with
    | some s => .snapshot s
    | none => .loadingError),
   st)

/-- The `/api/img` branch observed at its decision: the response status and
the URL handed to `proxyImage`, if any.  `decode` abstracts
`decodeURIComponent`; `proxy` abstracts the proxied fetch outcome. -/
structure ImgResult where
  status : Nat
  fetchedUrl : Option String
deriving DecidableEq, Repr

/-- The `/api/img` branch of the request handler: the raw parameter is
`req.url.split('?url=')[1]`; a missing or empty parameter, or a decoded value
not starting with the trusted prefix, is answered 400 with no fetch. -/
def handleApiImg (reqUrl : String) (decode : String → String)
    (proxy : String → Except Unit Unit) : ImgResult :=
  match (jsSplit reqUrl "?url=")[1]? with
  | none => { status := 400, fetchedUrl := none }
  | some raw =>
    if raw = "" then { status := 400, fetchedUrl := none }
    else if !jsStartsWith (decode raw) "https://liquipedia.net/" then
      { status := 400, fetchedUrl := none }
    else
      match proxy (decode raw) with
      | .ok _ => { status := 200, fetchedUrl := some (decode raw) }
      | .error _ => { status := 502, fetchedUrl := some (decode raw) }

-- ---------------------------------------------------------------------------
-- Shared concrete inputs for witnesses and counterexamples
-- ---------------------------------------------------------------------------

/-- An idle server state with nothing cached. -/
def stIdle : ServerState := ⟨none, false, fun _ => none⟩

/-- A server state in the middle of a refresh. -/
def stBusy : ServerState := ⟨none, true, fun _ => none⟩

/-- Outcomes where every fetch succeeds (with minimal payloads). -/
def oAllOk : FetchOutcomes :=
  { teamInfo := fun _ => .ok (some emptyInfo)
    teamMatches := fun _ => .ok (some [])
    teamPlayers := fun _ => .ok (some [])
    teamHeroes := fun _ => .ok (some [])
    heroStats := .ok (some [])
    live := .ok (some [])
    proPlayers := .ok (some [])
    matchDetail := fun _ => .ok none
    upcomingResp := .ok ⟨2000, []⟩ }

/-- Outcomes where only the global `/heroStats` fetch fails. -/
def oHeroFail : FetchOutcomes := { oAllOk with heroStats := .error () }

-- ---------------------------------------------------------------------------
-- C3: the refresh guard flag
-- ---------------------------------------------------------------------------

/-- Claim C3: two full refresh cycles never overlap.  A call made while the
flag is set returns immediately with the state untouched (and performs no
work, hence nothing is queued); a call made while idle always ends with the
flag cleared, whether the body succeeded or failed. -/
theorem refresh_no_overlap (st : ServerState) (o : FetchOutcomes) (now : Nat) :
    (st.isRefreshing = true → refreshAllData st o now = (st, false)) ∧
    (st.isRefreshing = false →
      ((refreshAllData st o now).1).isRefreshing = false) := by
  constructor
  · intro h
    simp [refreshAllData, h]
  · intro h
    simp only [refreshAllData, h, Bool.false_eq_true, if_false]
    cases refreshBody o now <;> simp

/-- Witness for C3 at concrete states: a busy state is returned unchanged
with no work done, and an idle run clears the flag. -/
theorem refresh_no_overlap_witness :
    refreshAllData stBusy oAllOk 0 = (stBusy, false) ∧
    ((refreshAllData stIdle oAllOk 0).1).isRefreshing = false :=
  ⟨(refresh_no_overlap stBusy oAllOk 0).1 rfl,
   (refresh_no_overlap stIdle oAllOk 0).2 rfl⟩

-- ---------------------------------------------------------------------------
-- C6: the /api/data route
-- ---------------------------------------------------------------------------

/-- Claim C6: `/api/data` answers 200 with the cached snapshot when one
exists, 503 with the loading-error body otherwise, and never modifies the
server state. -/
theorem api_data_response (st : ServerState) :
    (∀ s, st.cachedData = some s →
      (handleApiData st).1 = (200, DataBody.snapshot s)) ∧
    (st.cachedData = none →
      (handleApiData st).1 = (503, DataBody.loadingError)) ∧
    (handleApiData st).2 = st := by
  refine ⟨fun s hs => ?_, fun h => ?_, rfl⟩
  · simp [handleApiData, hs]
  · simp [handleApiData, h]

/-- Witness for C6: with nothing cached the route answers 503 and leaves the
state alone. -/
theorem api_data_response_witness :
    (handleApiData stIdle).1 = (503, DataBody.loadingError) ∧
    (handleApiData stIdle).2 = stIdle :=
  ⟨(api_data_response stIdle).2.1 rfl, (api_data_response stIdle).2.2⟩

-- ---------------------------------------------------------------------------
-- C7: the live-only refresher touches only the live fields
-- ---------------------------------------------------------------------------

/-- Claim C7: a run of `refreshLiveOnly` leaves the state unchanged when no
snapshot is cached, and otherwise rewrites only the `liveMatches` and
`liveUpdated` fields of the snapshot — `teams`, `heroMap`, `upcoming`,
`teamConfig` and `lastUpdated` are untouched, as are the other state
fields. -/
theorem refreshLiveOnly_frame (st : ServerState)
    (o : Except Unit (Option (List LiveMatch))) (now : Nat) :
    (st.cachedData = none → refreshLiveOnly st o now = st) ∧
    (∀ s, st.cachedData = some s →
      ∃ s2, refreshLiveOnly st o now = { st with cachedData := some s2 } ∧
        s2.teams = s.teams ∧ s2.heroMap = s.heroMap ∧
        s2.upcoming = s.upcoming ∧ s2.teamConfig = s.teamConfig ∧
        s2.lastUpdated = s.lastUpdated ∧ s2.liveUpdated = some now) := by
  constructor
  · intro h
    simp [refreshLiveOnly, h]
  · intro s hs
    refine ⟨{ s with
        liveMatches := ((match o with
          | .ok v => v
          | .error _ => some []).getD []).filter
            (fun m => ourIdsHas m.radiant_team_id || ourIdsHas m.dire_team_id),
        liveUpdated := some now }, ?_, rfl, rfl, rfl, rfl, rfl, rfl⟩
    simp [refreshLiveOnly, hs]

/-- A minimal concrete snapshot. -/
def snapDemo : Snapshot :=
  { teams := fun _ => default
    heroMap := fun _ => none
    liveMatches := []
    upcoming := []
    teamConfig := TEAMS
    lastUpdated := 17
    liveUpdated := none }

/-- A server state caching `snapDemo`. -/
def stWithSnap : ServerState := ⟨some snapDemo, false, fun _ => none⟩

/-- Witness for C7 at a concrete cached state. -/
theorem refreshLiveOnly_frame_witness :
    ∃ s2, refreshLiveOnly stWithSnap (.ok (some [])) 99 =
        { stWithSnap with cachedData := some s2 } ∧
      s2.teams = snapDemo.teams ∧ s2.heroMap = snapDemo.heroMap ∧
      s2.upcoming = snapDemo.upcoming ∧ s2.teamConfig = snapDemo.teamConfig ∧
      s2.lastUpdated = snapDemo.lastUpdated ∧ s2.liveUpdated = some 99 :=
  (refreshLiveOnly_frame stWithSnap (.ok (some [])) 99).2 snapDemo rfl

-- ---------------------------------------------------------------------------
-- C5: the /api/img guard
-- ---------------------------------------------------------------------------

/-- Claim C5: a missing `url` query parameter, or a decoded value that does
not start with `https://liquipedia.net/`, is answered 400 with no outbound
fetch; any URL actually handed to the proxy carries the trusted prefix. -/
theorem api_img_guard (reqUrl : String) (decode : String → String)
    (proxy : String → Except Unit Unit) :
    ((jsSplit reqUrl "?url=")[1]? = none →
      handleApiImg reqUrl decode proxy = ⟨400, none⟩) ∧
    (∀ s, (jsSplit reqUrl "?url=")[1]? = some s →
      jsStartsWith (decode s) "https://liquipedia.net/" = false →
      handleApiImg reqUrl decode proxy = ⟨400, none⟩) ∧
    (∀ t, (handleApiImg reqUrl decode proxy).fetchedUrl = some t →
      jsStartsWith t "https://liquipedia.net/" = true) := by
  refine ⟨fun h => ?_, fun s hs hpre => ?_, fun t ht => ?_⟩
  · unfold handleApiImg
    rw [h]
  · unfold handleApiImg
    rw [hs]
    by_cases he : s = ""
    · simp [he]
    · simp [he, hpre]
  · unfold handleApiImg at ht
    cases hq : (jsSplit reqUrl "?url=")[1]? with
    | none => rw [hq] at ht; simp at ht
    | some s =>
      rw [hq] at ht
      by_cases he : s = ""
      · simp [he] at ht
      · by_cases hpre : jsStartsWith (decode s) "https://liquipedia.net/"
        · cases hp : proxy (decode s) <;> simp [he, hpre, hp] at ht <;>
            exact ht ▸ hpre
        · simp [he, hpre] at ht

/-- Witness for C5: an untrusted URL is rejected with no fetch. -/
theorem api_img_guard_witness :
    handleApiImg "/api/img?url=http://evil.example/x.png" id
      (fun _ => .ok ()) = ⟨400, none⟩ :=
  (api_img_guard "/api/img?url=http://evil.example/x.png" id
      (fun _ => .ok ())).2.1 "http://evil.example/x.png" (by decide) (by decide)

-- ---------------------------------------------------------------------------
-- C9: the per-player hero cache
-- ---------------------------------------------------------------------------

/-- Claim C9: a cache entry younger than 30 minutes is returned with no fetch
and no state change; otherwise the fetched payload is filtered to heroes with
more than 0 games, truncated to at most 10 entries, stored under the player id
with the current timestamp, and returned.  The cache is independent of the
snapshot refresh cycle: `getPlayerHeroes` never touches the snapshot or the
refresh flag, and a refresh cycle never touches the player-hero cache. -/
theorem getPlayerHeroes_cache (st : ServerState) (now aid : Nat)
    (f : Except Unit (Option (List RawPlayerHero))) :
    (∀ c, st.playerHeroCache aid = some c → now - c.timestamp < 30 * 60 * 1000 →
      getPlayerHeroes st now aid f = (.ok c.data, st, false)) ∧
    (∀ d, f = .ok d →
      (∀ c, st.playerHeroCache aid = some c →
        30 * 60 * 1000 ≤ now - c.timestamp) →
      getPlayerHeroes st now aid f =
        (.ok (phTransform d),
         { st with playerHeroCache := fun i =>
             if i = aid then some { data := phTransform d, timestamp := now }
             else st.playerHeroCache i },
         true)) ∧
    (∀ d, (phTransform d).length ≤ 10 ∧ ∀ x ∈ phTransform d, 0 < x.games) ∧
    ((getPlayerHeroes st now aid f).2.1.cachedData = st.cachedData ∧
     (getPlayerHeroes st now aid f).2.1.isRefreshing = st.isRefreshing) ∧
    (∀ o now2, ((refreshAllData st o now2).1).playerHeroCache =
      st.playerHeroCache) := by
  refine ⟨fun c hc hfresh => ?_, fun d hd hstale => ?_, fun d => ⟨?_, ?_⟩,
    ⟨?_, ?_⟩, fun o now2 => ?_⟩
  · simp [getPlayerHeroes, hc, hfresh]
  · cases hc : st.playerHeroCache aid with
    | none => simp [getPlayerHeroes, hc, hd]
    | some c =>
      have h := hstale c hc
      have : ¬(now - c.timestamp < 30 * 60 * 1000) := by omega
      simp [getPlayerHeroes, hc, hd, this]
  · calc (phTransform d).length
        ≤ (((d.getD []).filter (fun h => 0 < h.games.getD 0)).take 10).length := by
          simp [phTransform]
      _ ≤ 10 := List.length_take_le 10 _
  · intro x hx
    simp only [phTransform, List.mem_map] at hx
    obtain ⟨h, hmem, hxeq⟩ := hx
    have hfil := List.mem_of_mem_take hmem
    have := List.of_mem_filter hfil
    simp only at this
    subst hxeq
    simpa using this
  · unfold getPlayerHeroes
    cases hc : st.playerHeroCache aid with
    | none => cases f <;> simp
    | some c =>
      by_cases hfresh : now - c.timestamp < 30 * 60 * 1000 <;>
        cases f <;> simp [hfresh]
  · unfold getPlayerHeroes
    cases hc : st.playerHeroCache aid with
    | none => cases f <;> simp
    | some c =>
      by_cases hfresh : now - c.timestamp < 30 * 60 * 1000 <;>
        cases f <;> simp [hfresh]
  · unfold refreshAllData
    by_cases hr : st.isRefreshing
    · simp [hr]
    · simp only [hr, if_false]
      cases refreshBody o now2 <;> simp

/-- A state whose player-hero cache holds a fresh entry for account 101. -/
def stFreshPH : ServerState :=
  ⟨none, false, fun i =>
    if i = 101 then some { data := [⟨7, 5, 3⟩], timestamp := 1000 } else none⟩

/-- Witness for C9: a fresh cache entry is served without fetching. -/
theorem getPlayerHeroes_cache_witness :
    getPlayerHeroes stFreshPH 2000 101 (.error ()) =
      (.ok [⟨7, 5, 3⟩], stFreshPH, false) :=
  (getPlayerHeroes_cache stFreshPH 2000 101 (.error ())).1
    { data := [⟨7, 5, 3⟩], timestamp := 1000 } (by decide) (by decide)

-- ---------------------------------------------------------------------------
-- C10: atomicity of the full refresh
-- ---------------------------------------------------------------------------

/-- Claim C10: the cached snapshot is replaced only as the final step of a
fully successful refresh body; whenever the body fails the previous cache
value (possibly `none`) is untouched, and any change to the cache comes with
a successful body whose snapshot is the new value. -/
theorem refresh_atomic (st : ServerState) (o : FetchOutcomes) (now : Nat) :
    ((∃ e, refreshBody o now = .error e) →
      ((refreshAllData st o now).1).cachedData = st.cachedData) ∧
    (((refreshAllData st o now).1).cachedData ≠ st.cachedData →
      ∃ snap, refreshBody o now = .ok snap ∧
        ((refreshAllData st o now).1).cachedData = some snap) := by
  unfold refreshAllData
  by_cases hr : st.isRefreshing
  · simp [hr]
  · simp only [hr, if_false]
    cases hb : refreshBody o now with
    | ok snap => exact ⟨fun ⟨e, he⟩ => Except.noConfusion he, fun _ => ⟨snap, rfl, rfl⟩⟩
    | error e => exact ⟨fun _ => rfl, fun h => absurd rfl h⟩

/-- Witness for C10: with a failing hero-stats fetch nothing is stored. -/
theorem refresh_atomic_witness :
    ((refreshAllData stIdle oHeroFail 5).1).cachedData = stIdle.cachedData :=
  (refresh_atomic stIdle oHeroFail 5).1 ⟨(), rfl⟩

-- ---------------------------------------------------------------------------
-- C1: which sub-fetch failures the refresh survives
-- ---------------------------------------------------------------------------

/-- The fetches that `refreshAllData` awaits without a `.catch`: the global
hero stats and all four per-team endpoints. -/
def requiredOk (o : FetchOutcomes) : Bool :=
  o.heroStats.isOk && allTeamKeys.all (fun k =>
    (o.teamInfo k).isOk && (o.teamMatches k).isOk &&
    (o.teamPlayers k).isOk && (o.teamHeroes k).isOk)

theorem teamFetch_isOk (o : FetchOutcomes) (k : TeamKey) :
    (teamFetch o k).isOk = ((o.teamInfo k).isOk && (o.teamMatches k).isOk &&
      (o.teamPlayers k).isOk && (o.teamHeroes k).isOk) := by
  unfold teamFetch
  cases o.teamInfo k <;> cases o.teamMatches k <;> cases o.teamPlayers k <;>
    cases o.teamHeroes k <;> rfl

theorem refreshBody_isOk (o : FetchOutcomes) (now : Nat) :
    (refreshBody o now).isOk = (o.heroStats.isOk && (teamFetch o .xg).isOk &&
      (teamFetch o .yb).isOk && (teamFetch o .vg).isOk) := by
  unfold refreshBody
  cases o.heroStats <;> cases teamFetch o .xg <;> cases teamFetch o .yb <;>
    cases teamFetch o .vg <;> rfl

theorem refreshBody_isOk_eq_requiredOk (o : FetchOutcomes) (now : Nat) :
    (refreshBody o now).isOk = requiredOk o := by
  rw [refreshBody_isOk, requiredOk]
  simp only [allTeamKeys, List.all_cons, List.all_nil, teamFetch_isOk,
    Bool.and_true]
  cases o.heroStats.isOk <;> cases (o.teamInfo .xg).isOk <;>
    cases (o.teamMatches .xg).isOk <;> cases (o.teamPlayers .xg).isOk <;>
    cases (o.teamHeroes .xg).isOk <;> simp

theorem exists_ok_of_isOk {ε α : Type} {e : Except ε α} (h : e.isOk = true) :
    ∃ v, e = .ok v := by
  cases e with
  | ok v => exact ⟨v, rfl⟩
  | error _ => simp [Except.isOk, Except.toBool] at h

/-- Claim C1 (amended): when the hero-stats fetch and all per-team fetches
succeed, a refresh always stores a snapshot, and a failure of the live-games
fetch, of the scrape, or of every roster detail fetch only empties the
corresponding field; but when the hero-stats fetch or any per-team fetch
fails, the whole refresh is aborted and the cache is left unchanged. -/
theorem refresh_partial_failure (st : ServerState) (o : FetchOutcomes)
    (now : Nat) (hidle : st.isRefreshing = false) :
    (requiredOk o = true → ∃ snap,
      refreshAllData st o now =
        ({ st with cachedData := some snap, isRefreshing := false }, true) ∧
      ((∃ e, o.live = .error e) → snap.liveMatches = []) ∧
      ((∃ e, o.upcomingResp = .error e) → snap.upcoming = []) ∧
      ((∀ mid, ∃ e, o.matchDetail mid = .error e) →
        ∀ k, (snap.teams k).roster = [])) ∧
    (requiredOk o = false →
      ((refreshAllData st o now).1).cachedData = st.cachedData ∧
      (refreshAllData st o now).2 = true) := by
  constructor
  · intro hreq
    have hok : (refreshBody o now).isOk = true := by
      rw [refreshBody_isOk_eq_requiredOk]; exact hreq
    have hHS : o.heroStats.isOk = true := by
      unfold requiredOk at hreq
      simp only [Bool.and_eq_true] at hreq
      exact hreq.1
    have hTF : ∀ k : TeamKey, (teamFetch o k).isOk = true := by
      intro k
      unfold requiredOk at hreq
      simp only [Bool.and_eq_true] at hreq
      have h2 := hreq.2
      rw [List.all_eq_true] at h2
      have h3 := h2 k (by cases k <;> simp [allTeamKeys])
      rw [teamFetch_isOk]
      simp only [Bool.and_eq_true] at h3 ⊢
      tauto
    obtain ⟨hs, hhs⟩ := exists_ok_of_isOk hHS
    obtain ⟨rxg, hxg⟩ := exists_ok_of_isOk (hTF .xg)
    obtain ⟨ryb, hyb⟩ := exists_ok_of_isOk (hTF .yb)
    obtain ⟨rvg, hvg⟩ := exists_ok_of_isOk (hTF .vg)
    obtain ⟨snap, hb⟩ := exists_ok_of_isOk hok
    refine ⟨snap, ?_, ?_, ?_, ?_⟩
    · simp [refreshAllData, hidle, hb]
    · rintro ⟨e, he⟩
      unfold refreshBody at hb
      rw [hhs, hxg, hyb, hvg] at hb
      injection hb with h2
      subst h2
      simp [he]
    · rintro ⟨e, he⟩
      unfold refreshBody at hb
      rw [hhs, hxg, hyb, hvg] at hb
      injection hb with h2
      subst h2
      simp [fetchUpcoming, he]
    · intro hdet k
      unfold refreshBody at hb
      rw [hhs, hxg, hyb, hvg] at hb
      injection hb with h2
      subst h2
      simp only [buildCurrentRosters, rosterFor]
      cases hrec : (match k with
          | TeamKey.xg => rxg
          | TeamKey.yb => ryb
          | TeamKey.vg => rvg).matches_.head? with
      | none => simp [hrec]
      | some recent =>
        obtain ⟨e, he⟩ := hdet recent.match_id
        simp [hrec, he]
  · intro hreq
    have hko : (refreshBody o now).isOk = false := by
      rw [refreshBody_isOk_eq_requiredOk]; exact hreq
    cases hb : refreshBody o now with
    | ok snap => rw [hb] at hko; simp [Except.isOk, Except.toBool] at hko
    | error e => simp [refreshAllData, hidle, hb]

/-- Counterexample to C1 as stated: with every sub-fetch succeeding except
the global hero-stats fetch, the refresh cycle runs but stores nothing at
all — the cache stays `none` — instead of assembling and storing a snapshot
with only the hero map defaulted. -/
theorem refresh_partial_failure_counterexample :
    oHeroFail.heroStats = .error () ∧
    (oHeroFail.teamInfo .xg).isOk = true ∧
    (oHeroFail.teamMatches .xg).isOk = true ∧
    oHeroFail.live.isOk = true ∧
    oHeroFail.proPlayers.isOk = true ∧
    refreshAllData stIdle oHeroFail 5 = (stIdle, true) ∧
    ((refreshAllData stIdle oHeroFail 5).1).cachedData = none :=
  ⟨rfl, rfl, rfl, rfl, rfl, rfl, rfl⟩

/-- Witness for the amended C1: with all required fetches succeeding but the
live fetch, the scrape, and every roster detail fetch failing, a snapshot is
still stored, with those fields empty. -/
def oSoftFail : FetchOutcomes :=
  { oAllOk with live := .error (), upcomingResp := .error (),
                matchDetail := fun _ => .error () }

theorem refresh_partial_failure_witness :
    ∃ snap, refreshAllData stIdle oSoftFail 5 =
      ({ stIdle with cachedData := some snap, isRefreshing := false }, true) ∧
    snap.liveMatches = [] ∧ snap.upcoming = [] ∧
    ∀ k, (snap.teams k).roster = [] := by
  obtain ⟨snap, h1, h2, h3, h4⟩ :=
    (refresh_partial_failure stIdle oSoftFail 5 rfl).1 (by decide)
  exact ⟨snap, h1, h2 ⟨(), rfl⟩, h3 ⟨(), rfl⟩, h4 (fun _ => ⟨(), rfl⟩)⟩

-- ---------------------------------------------------------------------------
-- C4: the retry policy
-- ---------------------------------------------------------------------------

/-- Claim C4: with the default of 3 retries, `fetchWithRetry` attempts the
fetch at most 3 times; it returns the first successful result (after waiting
1000·(i+1) ms behind each failed attempt i, i.e. 1 s then 2 s); after a third
consecutive failure it propagates that final error.  The wiki scrape is never
retried: its single response failing immediately yields the empty upcoming
list. -/
theorem fetchWithRetry_spec {E A : Type} (attempt : Nat → Except E A) :
    (fetchWithRetry attempt).attempts ≤ 3 ∧
    (∀ j v, j < 3 → (∀ k, k < j → (attempt k).isOk = false) →
      attempt j = .ok v →
      fetchWithRetry attempt =
        ⟨.ok v, j + 1, (List.range j).map (fun k => 1000 * (k + 1))⟩) ∧
    (∀ e0 e1 e2, attempt 0 = .error e0 → attempt 1 = .error e1 →
      attempt 2 = .error e2 →
      fetchWithRetry attempt = ⟨.error (some e2), 3, [1000, 2000]⟩) ∧
    (∀ now e, fetchUpcoming now (.error e) = []) := by
  refine ⟨?_, ?_, ?_, fun now e => rfl⟩
  · unfold fetchWithRetry
    rw [fetchWithRetryGo]
    cases h0 : attempt 0 with
    | ok v => simp
    | error e0 =>
      simp only [show (0 < 3) = True by simp, if_true]
      rw [fetchWithRetryGo]
      cases h1 : attempt 1 with
      | ok v => simp
      | error e1 =>
        simp only []
        rw [fetchWithRetryGo]
        cases h2 : attempt 2 with
        | ok v => simp
        | error e2 => simp
  · intro j v hj hprev hok
    interval_cases j
    · unfold fetchWithRetry
      rw [fetchWithRetryGo, hok]
      simp
    · have h0 := hprev 0 (by norm_num)
      obtain ⟨e0, he0⟩ : ∃ e, attempt 0 = .error e := by
        cases h : attempt 0 with
        | ok w => rw [h] at h0; simp [Except.isOk, Except.toBool] at h0
        | error e => exact ⟨e, rfl⟩
      unfold fetchWithRetry
      rw [fetchWithRetryGo, he0]
      simp only [show (0 < 3) = True by simp, if_true, show (0 = 3 - 1) = False
        by simp, if_false]
      rw [fetchWithRetryGo, hok]
      simp [List.range_succ]
    · have h0 := hprev 0 (by norm_num)
      have h1 := hprev 1 (by norm_num)
      obtain ⟨e0, he0⟩ : ∃ e, attempt 0 = .error e := by
        cases h : attempt 0 with
        | ok w => rw [h] at h0; simp [Except.isOk, Except.toBool] at h0
        | error e => exact ⟨e, rfl⟩
      obtain ⟨e1, he1⟩ : ∃ e, attempt 1 = .error e := by
        cases h : attempt 1 with
        | ok w => rw [h] at h1; simp [Except.isOk, Except.toBool] at h1
        | error e => exact ⟨e, rfl⟩
      unfold fetchWithRetry
      rw [fetchWithRetryGo, he0]
      simp only [show (0 < 3) = True by simp, if_true, show (0 = 3 - 1) = False
        by simp, if_false]
      rw [fetchWithRetryGo, he1]
      simp only [show (1 < 3) = True by simp, if_true, show (1 = 3 - 1) = False
        by simp, if_false]
      rw [fetchWithRetryGo, hok]
      simp [List.range_succ]
  · intro e0 e1 e2 h0 h1 h2
    unfold fetchWithRetry
    rw [fetchWithRetryGo, h0]
    simp only [show (0 < 3) = True by simp, if_true, show (0 = 3 - 1) = False
      by simp, if_false]
    rw [fetchWithRetryGo, h1]
    simp only [show (1 < 3) = True by simp, if_true, show (1 = 3 - 1) = False
      by simp, if_false]
    rw [fetchWithRetryGo, h2]
    simp

/-- An attempt oracle failing once then succeeding. -/
def attemptFlaky : Nat → Except Nat Nat :=
  fun k => if k = 0 then .error 9 else .ok 42

/-- An attempt oracle that always fails. -/
def attemptDown : Nat → Except Nat Nat := fun _ => .error 9

/-- Witness for C4: the flaky oracle succeeds on the second attempt after a
1 s wait; the dead oracle exhausts 3 attempts with waits of 1 s and 2 s and
propagates the final error. -/
theorem fetchWithRetry_spec_witness :
    fetchWithRetry attemptFlaky = ⟨.ok 42, 2, [1000]⟩ ∧
    fetchWithRetry attemptDown = ⟨.error (some 9), 3, [1000, 2000]⟩ := by
  constructor
  · have h := (fetchWithRetry_spec attemptFlaky).2.1 1 42 (by norm_num)
      (fun k hk => by interval_cases k; rfl) rfl
    simpa using h
  · exact (fetchWithRetry_spec attemptDown).2.2.1 9 9 9 rfl rfl rfl

-- ---------------------------------------------------------------------------
-- C2: the scraper's tracked-team and staleness filters
-- ---------------------------------------------------------------------------

theorem findOurKey_some {names : List String} {k : TeamKey}
    (h : findOurKey names = some k) :
    ∃ nm ∈ names, ∃ pk ∈ teamLookup,
      nameMatchesPattern (jsToLower nm) pk.1 = true := by
  induction names with
  | nil => simp [findOurKey] at h
  | cons n ns ih =>
    rw [findOurKey, List.findSome?_cons] at h
    cases hf : teamLookup.find?
        (fun pk => nameMatchesPattern (jsToLower n) pk.1) with
    | some pk =>
      refine ⟨n, by simp, pk, List.mem_of_find?_eq_some hf, ?_⟩
      have := List.find?_some hf
      simpa using this
    | none =>
      rw [hf] at h
      simp only [Option.map_none'] at h
      obtain ⟨nm, hmem, hpk⟩ := ih (by rw [findOurKey]; exact h)
      exact ⟨nm, by simp [hmem], hpk⟩

/-- Claim C2 (amended): a fragment reaches the upcoming list only when one of
its extracted team names matches a tracked-team pattern; a fragment whose
extracted timestamp is nonzero and more than 3600 seconds in the past is
always skipped; a fragment with no extractable timestamp is unaffected by the
scrape time; and the scraped output is exactly the per-fragment results
(sorted).  (A zero timestamp is treated like a missing one by the code's
truthiness test.) -/
theorem scraper_filter (frag : Fragment) (now : Nat) :
    (∀ e, processFragment now frag = some e →
      ∃ nm ∈ (scanTeams frag.rawTeams).1, ∃ pk ∈ teamLookup,
        nameMatchesPattern (jsToLower nm) pk.1 = true) ∧
    (∀ t, frag.timestamp = some t → 0 < t → t < now - 3600 →
      processFragment now frag = none) ∧
    (frag.timestamp = none → ∀ now2,
      processFragment now frag = processFragment now2 frag) ∧
    (∀ page : ScrapedPage, 1000 ≤ page.htmlLen →
      (fetchUpcoming now (.ok page)).Perm
        (page.fragments.filterMap (processFragment now))) := by
  refine ⟨fun e he => ?_, fun t hts htpos hold => ?_, fun hn now2 => ?_,
    fun page hlen => ?_⟩
  · simp only [processFragment] at he
    by_cases hlen : (scanTeams frag.rawTeams).1.length < 2
    · simp [hlen] at he
    · cases hk : findOurKey (scanTeams frag.rawTeams).1 with
      | none => simp [hlen, hk] at he
      | some k => exact findOurKey_some hk
  · have hguard : (match frag.timestamp with
        | some t => !(t = 0) && decide (t < now - 3600)
        | none => false) = true := by
      rw [hts]
      simp only [Bool.and_eq_true, decide_eq_true_eq]
      exact ⟨by simpa using Nat.pos_iff_ne_zero.mp htpos, hold⟩
    by_cases hl : (scanTeams frag.rawTeams).1.length < 2
    · simp [processFragment, hl]
    · cases hk : findOurKey (scanTeams frag.rawTeams).1 with
      | none => simp [processFragment, hl, hk]
      | some k => simp [processFragment, hl, hk, hguard]
  · simp [processFragment, hn]
  · rw [fetchUpcoming, if_neg (by omega)]
    exact sortBy_perm _ _

/-- A fragment carrying a tracked team and the degenerate timestamp 0. -/
def fragPast : Fragment :=
  { rawTeams := [("Xtreme Gaming", "/a.png"), ("Team Spirit", "/b.png")]
    timestamp := some 0
    tournamentTitle := some "DreamLeague/28/Group Stage 1#February 16-B"
    bo := some 3 }

/-- Counterexample to C2 as stated: this fragment's extracted timestamp (0)
is more than 3600 seconds in the past at scrape time 10^9, yet the scraper
includes the fragment, because the JavaScript truthiness test treats a zero
timestamp like a missing one. -/
theorem scraper_filter_counterexample :
    fragPast.timestamp = some 0 ∧ 0 + 3600 < 1000000000 ∧
    (processFragment 1000000000 fragPast).isSome = true :=
  ⟨rfl, by norm_num, by decide⟩

/-- The same fragment with a nonzero stale timestamp. -/
def fragStale : Fragment := { fragPast with timestamp := some 5000 }

/-- A scraped page holding the two demonstration fragments. -/
def pageDemo : ScrapedPage := ⟨2000, [fragPast, fragStale]⟩

/-- Witness for the amended C2: the nonzero stale fragment is dropped, and
the scrape output is a permutation of the per-fragment results. -/
theorem scraper_filter_witness :
    processFragment 1000000000 fragStale = none ∧
    (fetchUpcoming 1000000000 (.ok pageDemo)).Perm
      (pageDemo.fragments.filterMap (processFragment 1000000000)) :=
  ⟨(scraper_filter fragStale 1000000000).2.1 5000 rfl (by norm_num)
      (by norm_num),
   (scraper_filter fragStale 1000000000).2.2.2 pageDemo (by decide)⟩

-- ---------------------------------------------------------------------------
-- C8: characterisation of the series grouping
-- ---------------------------------------------------------------------------

theorem joinsCurrent_eq_sameSeriesAdj {s : Series} {pre : List MatchRec}
    {lastg : MatchRec} (hg : s.games = pre ++ [lastg])
    (ho : s.opponentId = lastg.opposing_team_id)
    (hl : s.league = lastg.league_name.getD "") (m : MatchRec) :
    joinsCurrent s m = sameSeriesAdj lastg m := by
  unfold joinsCurrent sameSeriesAdj lastTime
  rw [hg, ho, hl, List.getLast?_concat]
  have hne : (pre ++ [lastg]).isEmpty = false := by cases pre <;> rfl
  rw [hne]
  simp

theorem groupGo_chunk (xs : List MatchRec) :
    ∀ (done : List Series) (pre : List MatchRec) (lastg : MatchRec)
      (s : Series), s.games = pre ++ [lastg] →
      s.opponentId = lastg.opposing_team_id →
      s.league = lastg.league_name.getD "" →
      ((xs.foldl seriesStep (done, some s)).1 ++
        (xs.foldl seriesStep (done, some s)).2.toList).map Series.games =
      done.map Series.games ++ chunkByGo sameSeriesAdj pre lastg xs := by
  induction xs with
  | nil =>
    intro done pre lastg s hg _ _
    simp [chunkByGo, hg]
  | cons y ys ih =>
    intro done pre lastg s hg ho hl
    rw [List.foldl_cons]
    have hstep : seriesStep (done, some s) y =
        if sameSeriesAdj lastg y then (done, some (pushGame s y))
        else (done ++ [s], some (newSeries y)) := by
      have : seriesStep (done, some s) y =
          if joinsCurrent s y then (done, some (pushGame s y))
          else (done ++ [s], some (newSeries y)) := rfl
      rw [this, joinsCurrent_eq_sameSeriesAdj hg ho hl]
    rw [hstep]
    by_cases hc : sameSeriesAdj lastg y = true
    · rw [if_pos hc]
      have hadj := hc
      unfold sameSeriesAdj at hadj
      simp only [Bool.and_eq_true, decide_eq_true_eq] at hadj
      have h1 : (pushGame s y).games = (pre ++ [lastg]) ++ [y] := by
        simp [pushGame, hg]
      have h2 : (pushGame s y).opponentId = y.opposing_team_id := by
        simp only [pushGame]
        rw [ho]
        exact hadj.1.1
      have h3 : (pushGame s y).league = y.league_name.getD "" := by
        simp only [pushGame]
        rw [hl]
        exact hadj.1.2
      rw [ih done (pre ++ [lastg]) y (pushGame s y) h1 h2 h3]
      simp only [chunkByGo, if_pos hc]
    · rw [if_neg hc]
      have h1 : (newSeries y).games = [] ++ [y] := by simp [newSeries]
      have h2 : (newSeries y).opponentId = y.opposing_team_id := rfl
      have h3 : (newSeries y).league = y.league_name.getD "" := rfl
      rw [ih (done ++ [s]) [] y (newSeries y) h1 h2 h3]
      simp only [chunkByGo, if_neg hc]
      simp [hg]

theorem groupPass_games (l : List MatchRec) :
    (groupPass l).map Series.games = chunkBy sameSeriesAdj l := by
  cases l with
  | nil => rfl
  | cons x xs =>
    have h := groupGo_chunk xs [] [] x (newSeries x) (by simp [newSeries])
      rfl rfl
    simpa [groupPass, chunkBy, seriesStep] using h

/-- The running win/loss counters of a series agree with its game list. -/
def winsInv (s : Series) : Prop :=
  s.wins = s.games.countP didWin ∧
  s.losses = s.games.countP (fun m => !didWin m)

theorem winsInv_newSeries (m : MatchRec) : winsInv (newSeries m) := by
  unfold winsInv newSeries
  by_cases h : didWin m <;> simp [List.countP_cons, h]

theorem winsInv_pushGame {s : Series} (h : winsInv s) (m : MatchRec) :
    winsInv (pushGame s m) := by
  obtain ⟨h1, h2⟩ := h
  unfold winsInv pushGame
  by_cases hw : didWin m <;>
    simp [List.countP_append, List.countP_cons, h1, h2, hw]

theorem groupGo_inv (xs : List MatchRec) :
    ∀ (done : List Series) (s : Series),
      (∀ t ∈ done, winsInv t) → winsInv s →
      ∀ t ∈ ((xs.foldl seriesStep (done, some s)).1 ++
        (xs.foldl seriesStep (done, some s)).2.toList), winsInv t := by
  induction xs with
  | nil =>
    intro done s hdone hs t ht
    simp only [List.foldl_nil, Option.toList_some, List.mem_append,
      List.mem_singleton] at ht
    rcases ht with h | h
    · exact hdone t h
    · exact h ▸ hs
  | cons y ys ih =>
    intro done s hdone hs t ht
    rw [List.foldl_cons] at ht
    by_cases hc : joinsCurrent s y = true
    · have hstep : seriesStep (done, some s) y =
          (done, some (pushGame s y)) := by
        simp [seriesStep, hc]
      rw [hstep] at ht
      exact ih done (pushGame s y) hdone (winsInv_pushGame hs y) t ht
    · have hstep : seriesStep (done, some s) y =
          (done ++ [s], some (newSeries y)) := by
        simp [seriesStep, hc]
      rw [hstep] at ht
      refine ih (done ++ [s]) (newSeries y) ?_ (winsInv_newSeries y) t ht
      intro u hu
      rcases List.mem_append.mp hu with h | h
      · exact hdone u h
      · rw [List.mem_singleton] at h
        exact h ▸ hs

theorem groupPass_inv (l : List MatchRec) :
    ∀ t ∈ groupPass l, winsInv t := by
  cases l with
  | nil =>
    intro t ht
    simp [groupPass] at ht
  | cons x xs =>
    intro t ht
    refine groupGo_inv xs [] (newSeries x) (by simp) (winsInv_newSeries x) t ?_
    simpa [groupPass, seriesStep] using ht

theorem finalize_boType {s : Series}
    (h1 : s.wins = s.games.countP didWin)
    (h2 : s.losses = s.games.length - s.games.countP didWin) :
    (finalizeSeries s).boType =
      boFormula s.games.length (s.games.countP didWin) := by
  have hL : (finalizeSeries s).boType =
      (if s.games.length = 1 then "BO1"
       else if max s.wins s.losses = 2 ∧ s.games.length ≤ 3 then "BO3"
       else if max s.wins s.losses = 3 ∧ s.games.length ≤ 5 then "BO5"
       else toString s.games.length ++ "G") := rfl
  rw [hL, h1, h2]
  rfl

/-- Claim C8: on the descending-sorted match list, consecutive matches are
grouped into one series exactly when adjacent games share the opposing team
id and the league name and lie within 6 hours of each other (each output
series is, up to the final in-series reordering, one maximal such run); and
each series' inferred format equals the claim's formula — BO1 for one game,
BO3 when the larger side won 2 of at most 3 games, BO5 when it won 3 of at
most 5 games, and a game-count label otherwise. -/
theorem groupSeries_spec (l : List MatchRec) :
    List.Forall₂ (fun g c => List.Perm g c)
      ((groupMatchesIntoSeries l).map Series.games)
      (chunkBy sameSeriesAdj (sortDesc l)) ∧
    ∀ s ∈ groupMatchesIntoSeries l,
      s.wins = s.games.countP didWin ∧
      s.losses = s.games.length - s.games.countP didWin ∧
      s.boType = boFormula s.games.length (s.games.countP didWin) := by
  by_cases hemp : l.isEmpty
  · have hl : l = [] := by
      cases l with
      | nil => rfl
      | cons x xs => simp [List.isEmpty] at hemp
    subst hl
    constructor
    · simp [groupMatchesIntoSeries, sortDesc, sortBy, chunkBy]
    · intro s hs
      simp [groupMatchesIntoSeries] at hs
  · have hg : groupMatchesIntoSeries l =
        (groupPass (sortDesc l)).map finalizeSeries := by
      simp [groupMatchesIntoSeries, hemp]
    constructor
    · rw [hg, ← groupPass_games, List.map_map]
      rw [List.forall₂_map_left_iff, List.forall₂_map_right_iff,
        List.forall₂_same]
      intro s _
      exact sortBy_perm _ _
    · rw [hg]
      intro s hs
      rw [List.mem_map] at hs
      obtain ⟨t, htm, rfl⟩ := hs
      obtain ⟨hw, hlo⟩ := groupPass_inv (sortDesc l) t htm
      have hperm : List.Perm (finalizeSeries t).games t.games :=
        sortBy_perm _ _
      have hcnt : (finalizeSeries t).games.countP didWin =
          t.games.countP didWin := hperm.countP_eq _
      have hlen : (finalizeSeries t).games.length = t.games.length :=
        hperm.length_eq
      have hnot : t.games.countP (fun a => decide ¬(didWin a = true)) =
          t.games.countP (fun m => !didWin m) := by
        refine List.countP_congr (fun x _ => ?_)
        cases didWin x <;> simp
      have hcombo := List.length_eq_countP_add_countP didWin t.games
      have hloss2 : t.losses = t.games.length - t.games.countP didWin := by
        rw [hlo, ← hnot]
        omega
      refine ⟨?_, ?_, ?_⟩
      · rw [hcnt]
        exact hw
      · rw [hcnt, hlen]
        exact hloss2
      · rw [hcnt, hlen]
        exact finalize_boType hw hloss2

/-- Three concrete matches: two against team 7 in league L within 6 hours,
one against team 8 much later. -/
def demoMatches : List MatchRec :=
  [{ match_id := 1, start_time := some 1000, radiant := some true,
     radiant_win := some true, opposing_team_id := some 7,
     opposing_team_name := some "Opp", league_name := some "L",
     leagueid := some 1 },
   { match_id := 2, start_time := some 5000, radiant := some true,
     radiant_win := some true, opposing_team_id := some 7,
     opposing_team_name := some "Opp", league_name := some "L",
     leagueid := some 1 },
   { match_id := 3, start_time := some 100000, radiant := some true,
     radiant_win := some false, opposing_team_id := some 8,
     opposing_team_name := some "Opp2", league_name := some "L",
     leagueid := some 1 }]

/-- Witness for C8 at the concrete list: the grouping matches the adjacency
chunks, and the first output series carries the formula's label. -/
theorem groupSeries_spec_witness :
    List.Forall₂ (fun g c => List.Perm g c)
      ((groupMatchesIntoSeries demoMatches).map Series.games)
      (chunkBy sameSeriesAdj (sortDesc demoMatches)) ∧
    ((groupMatchesIntoSeries demoMatches).headD default).boType =
      boFormula ((groupMatchesIntoSeries demoMatches).headD default).games.length
        (((groupMatchesIntoSeries demoMatches).headD default).games.countP
          didWin) :=
  ⟨(groupSeries_spec demoMatches).1,
   ((groupSeries_spec demoMatches).2
     ((groupMatchesIntoSeries demoMatches).headD default) (by decide)).2.2⟩
